import Mathlib

/-!
Verification of the composite-tree / visitor-export core of the
"Visitor Pattern Exemplified in TypeScript" repository
(`Source/Tree.ts`, `Source/Notebook.ts`).

The tree is embedded as a heap: nodes are identified by natural-number
ids (modelling JavaScript object identity, so `===`/`indexOf` equality
becomes `Nat` equality), and the mutable state maps each id to its
record of fields.  Every operation of the source is translated as a
state transformer.  The two exporters are embedded as fuel-indexed
state-threading functions so that both their termination and their
frame condition (the tree is never written) are provable facts rather
than artefacts of the embedding.
-/

/-- The five concrete node classes of the domain model
(`Notebook`, `Page`, `TextCell`, `SourceCodeCell`, `ImageCell`). -/
inductive Kind where
  | notebook
  | page
  | textCell
  | sourceCodeCell
  | imageCell
deriving DecidableEq, Repr

/-- The fields of a node.  `_parent` and `_children` are the private
backing fields of `Node` / `TypedNode` in `Tree.ts`; the attribute
fields collect the public constructor attributes of the concrete
classes in `Notebook.ts` (`title`, `text`, `sourceCode`, `imageUrl`),
each defaulting to the empty string for kinds that do not use it. -/
structure NodeState where
  kind : Kind
  title : String
  text : String
  sourceCode : String
  imageUrl : String
  _parent : Option Nat
  _children : List Nat
deriving DecidableEq, Repr

/-- The heap: a total map from node ids to node records.
Ids never allocated hold the default record. -/
def State : Type := Nat → NodeState

/-- Default record of an unallocated id. -/
def defaultNode : NodeState :=
  { kind := Kind.textCell, title := "", text := "", sourceCode := "",
    imageUrl := "", _parent := none, _children := [] }

/-- The empty heap. -/
def s0 : State := fun _ => defaultNode

/-- Point update of the heap. -/
def setNode (s : State) (n : Nat) (v : NodeState) : State :=
  fun m => if m = n then v else s m

/-- `TypedNode.getIndexOfChild`: `this._children.indexOf(child, 0)`.
JavaScript `indexOf` yields the first index or `-1`; we model the
result as `Option Nat` (`none` standing for `-1`). -/
def getIndexOfChild (l : List Nat) (c : Nat) : Option Nat :=
  l.findIdx? (fun x => x == c)

/-- `TypedNode.removeChild`: look up the child's index; if negative
return, otherwise `splice(index, 1)`. -/
def removeChild (s : State) (p c : Nat) : State :=
  match getIndexOfChild (s p)._children c with
  | none => s
  | some i => setNode s p { s p with _children := (s p)._children.eraseIdx i }

/-- `TypedNode.addChild`: if the item is already present return,
otherwise `push` it at the end. -/
def addChild (s : State) (p c : Nat) : State :=
  match getIndexOfChild (s p)._children c with
  | some _ => s
  | none => setNode s p { s p with _children := (s p)._children ++ [c] }

/-- First statement of `Node.set parent`:
`if (this.parent) this.parent.removeChild(this);` — a JavaScript
truthiness test on the getter's value. -/
def detachFromOldParent (s : State) (n : Nat) : State :=
  match (s n)._parent with
  | some q => removeChild s q n
  | none => s

/-- `Node.set parent`: `if (this.parent) this.parent.removeChild(this);
if (value) value.addChild(this);`.  Exactly as in the source, the
backing field `_parent` is never written. -/
def setParent (s : State) (n : Nat) (v : Option Nat) : State :=
  match v with
  | some p => addChild (detachFromOldParent s n) p n
  | none => detachFromOldParent s n

/-- `Node.get parent`: returns the backing field `_parent`. -/
def parentOf (s : State) (n : Nat) : Option Nat :=
  (s n)._parent

/-- `TypedNode.get children` (also `Notebook.pages`, `Page.cells`). -/
def childrenOf (s : State) (n : Nat) : List Nat :=
  (s n)._children

/-- `new Notebook(title)`: initialises the record (field initialisers
run first: `_children = []`, `_parent` undefined) and the `Node`
constructor performs `this.parent = null`, a no-op assignment. -/
def newNotebook (s : State) (id : Nat) (t : String) : State :=
  setParent
    (setNode s id { kind := Kind.notebook, title := t, text := "",
                    sourceCode := "", imageUrl := "", _parent := none,
                    _children := [] })
    id none

/-- `Notebook.createPage(title)` = `new Page(this, title)`: the fresh
`Page` record is initialised and the `Node` constructor performs
`this.parent = parent` with the notebook as value. -/
def createPage (s : State) (nb : Nat) (id : Nat) (t : String) : State :=
  setParent
    (setNode s id { kind := Kind.page, title := t, text := "",
                    sourceCode := "", imageUrl := "", _parent := none,
                    _children := [] })
    id (some nb)

/-- `new TextCell(text)`: `super()` runs `this.parent = undefined`. -/
def newTextCell (s : State) (id : Nat) (txt : String) : State :=
  setParent
    (setNode s id { kind := Kind.textCell, title := "", text := txt,
                    sourceCode := "", imageUrl := "", _parent := none,
                    _children := [] })
    id none

/-- `new SourceCodeCell(sourceCode)`. -/
def newSourceCodeCell (s : State) (id : Nat) (code : String) : State :=
  setParent
    (setNode s id { kind := Kind.sourceCodeCell, title := "", text := "",
                    sourceCode := code, imageUrl := "", _parent := none,
                    _children := [] })
    id none

/-- `new ImageCell(imageUrl)`. -/
def newImageCell (s : State) (id : Nat) (url : String) : State :=
  setParent
    (setNode s id { kind := Kind.imageCell, title := "", text := "",
                    sourceCode := "", imageUrl := url, _parent := none,
                    _children := [] })
    id none

/-- `Page.addCell(cell)`: `cell.parent = this`. -/
def addCell (s : State) (p c : Nat) : State :=
  setParent s c (some p)

/-- One public mutating operation of the repository: the constructors,
`Notebook.createPage`, `Page.addCell`, and a raw parent assignment
`n.parent = v`. -/
inductive Op where
  | mkNotebook (id : Nat) (t : String)
  | mkPage (nb id : Nat) (t : String)
  | mkTextCell (id : Nat) (txt : String)
  | mkSourceCodeCell (id : Nat) (code : String)
  | mkImageCell (id : Nat) (url : String)
  | opAddCell (p c : Nat)
  | opSetParent (n : Nat) (v : Option Nat)
deriving DecidableEq, Repr

/-- Interpret one operation on the heap. -/
def applyOp (s : State) : Op → State
  | Op.mkNotebook id t => newNotebook s id t
  | Op.mkPage nb id t => createPage s nb id t
  | Op.mkTextCell id txt => newTextCell s id txt
  | Op.mkSourceCodeCell id code => newSourceCodeCell s id code
  | Op.mkImageCell id url => newImageCell s id url
  | Op.opAddCell p c => addCell s p c
  | Op.opSetParent n v => setParent s n v

/-- Run a sequence of operations from a starting heap. -/
def run (s : State) : List Op → State
  | [] => s
  | op :: rest => run (applyOp s op) rest

/-- A single apostrophe character, used in the demo driver's
`SourceCodeCell` content. -/
def apostr : String := String.singleton (Char.ofNat 39)

/-- `HtmlExporter.appendHtmlLine`: `this._html += '\n' + html`. -/
def appendHtmlLine (b line : String) : String :=
  b ++ "\n" ++ line

/-- `XmlExporter.appendXmlLine`: `this._xml += '\n' + xml`. -/
def appendXmlLine (b line : String) : String :=
  b ++ "\n" ++ line

/-- Initial value of `XmlExporter._xml`: the XML preamble. -/
def xmlInit : String := "<?xml version=\"1.0\" encoding=\"UTF-8\"?>"

/-- Initial value of `HtmlExporter._html`: the empty string. -/
def htmlInit : String := ""

/-- The `for (const child of children) child.export(this)` loop of the
container operations: run `step` (a node's `export` against the
current exporter) on every listed child in order, threading the heap
and the exporter's buffer through. -/
def exportIter (step : State → Nat → String → Option (State × String)) :
    State → List Nat → String → Option (State × String)
  | s, [], b => some (s, b)
  | s, c :: rest, b =>
    match step s c b with
    | none => none
    | some (s1, b1) => exportIter step s1 rest b1

/-- The mutually recursive traversal `node.export(htmlExporter)` /
`HtmlExporter.exportX(node)`: the node's `export` forwards to the
exporter operation matching its concrete class, which appends the
markup of `Tree.ts` and recurses into the children.  The heap is
threaded through explicitly (the source operations read it and never
write it) and a fuel argument bounds the dynamic recursion depth;
`none` means the fuel ran out. -/
def hExport : Nat → State → Nat → String → Option (State × String)
  | 0 => fun _ _ _ => none
  | Nat.succ f => fun s n b =>
    match (s n).kind with
    | Kind.notebook =>
      let b1 := appendHtmlLine b "<main class=\"notebook\">"
      let b2 := appendHtmlLine b1 ("<h1>" ++ (s n).title ++ "</h1>")
      match exportIter (hExport f) s (s n)._children b2 with
      | none => none
      | some (s2, b3) => some (s2, appendHtmlLine b3 "</main>")
    | Kind.page =>
      let b1 := appendHtmlLine b "<section class=\"page\">"
      let b2 := appendHtmlLine b1 ("<h2>" ++ (s n).title ++ "</h2>")
      match exportIter (hExport f) s (s n)._children b2 with
      | none => none
      | some (s2, b3) => some (s2, appendHtmlLine b3 "</section>")
    | Kind.textCell =>
      some (s, appendHtmlLine b ("<p>" ++ (s n).text ++ "</p>"))
    | Kind.sourceCodeCell =>
      some (s, appendHtmlLine b ("<code>" ++ (s n).sourceCode ++ "</code>"))
    | Kind.imageCell =>
      some (s, appendHtmlLine b ("<img src=\"" ++ (s n).imageUrl ++ "\">"))

/-- The traversal `node.export(xmlExporter)`, XML side of `Tree.ts`. -/
def xExport : Nat → State → Nat → String → Option (State × String)
  | 0 => fun _ _ _ => none
  | Nat.succ f => fun s n b =>
    match (s n).kind with
    | Kind.notebook =>
      let b1 := appendXmlLine b ("<notebook title=\"" ++ (s n).title ++ "\">")
      match exportIter (xExport f) s (s n)._children b1 with
      | none => none
      | some (s2, b2) => some (s2, appendXmlLine b2 "</notebook>")
    | Kind.page =>
      let b1 := appendXmlLine b ("<page title=\"" ++ (s n).title ++ "\">")
      match exportIter (xExport f) s (s n)._children b1 with
      | none => none
      | some (s2, b2) => some (s2, appendXmlLine b2 "</page>")
    | Kind.textCell =>
      some (s, appendXmlLine b ("<text>" ++ (s n).text ++ "</text>"))
    | Kind.sourceCodeCell =>
      some (s, appendXmlLine b ("<code>" ++ (s n).sourceCode ++ "</code>"))
    | Kind.imageCell =>
      some (s, appendXmlLine b ("<image url=\"" ++ (s n).imageUrl ++ "\" />"))

/-- Running a fresh `HtmlExporter` on a node:
`const e = new HtmlExporter(); node.export(e); e.html`.
Fuel 3 covers the notebook → page → cell nesting depth. -/
def runHtmlExporter (s : State) (n : Nat) : Option (State × String) :=
  hExport 3 s n htmlInit

/-- Running a fresh `XmlExporter` on a node. -/
def runXmlExporter (s : State) (n : Nat) : Option (State × String) :=
  xExport 3 s n xmlInit

/-- The operation sequence of the demo driver, with the image URL of
the specification's round-trip scenario: build the notebook
"My Coding Ideas" with its two pages and four cells. -/
def demoOps : List Op :=
  [ Op.mkNotebook 0 "My Coding Ideas",
    Op.mkPage 0 1 "First Page",
    Op.mkImageCell 2 "https://x/logo.png",
    Op.opAddCell 1 2,
    Op.mkSourceCodeCell 3 ("alert(" ++ apostr ++ "Hello, World!" ++ apostr ++ ");"),
    Op.opAddCell 1 3,
    Op.mkTextCell 4 "Hello, World!",
    Op.opAddCell 1 4,
    Op.mkPage 0 5 "Second Page",
    Op.mkTextCell 6 "Bye, World!",
    Op.opAddCell 5 6 ]

/-- The demo tree's heap. -/
def demoState : State := run s0 demoOps

theorem setNode_apply (s : State) (n : Nat) (v : NodeState) (m : Nat) :
    setNode s n v m = if m = n then v else s m := rfl

/-- A child is absent from a list exactly when `indexOf` reports `-1`. -/
theorem getIndexOfChild_eq_none (l : List Nat) (c : Nat) :
    getIndexOfChild l c = none ↔ c ∉ l := by
  unfold getIndexOfChild
  rw [List.findIdx?_eq_none_iff]
  constructor
  · intro h hc
    have := h c hc
    simp at this
  · intro h x hx
    by_cases hxc : x = c
    · exact absurd (hxc ▸ hx) h
    · simp [hxc]

/-- `removeChild` never touches the `_parent` backing field of any node. -/
theorem removeChild_parent (s : State) (p c m : Nat) :
    ((removeChild s p c) m)._parent = (s m)._parent := by
  unfold removeChild
  cases getIndexOfChild (s p)._children c with
  | none => rfl
  | some i =>
    by_cases hm : m = p
    · subst hm; simp [setNode]
    · simp [setNode, hm]

/-- `addChild` never touches the `_parent` backing field of any node. -/
theorem addChild_parent (s : State) (p c m : Nat) :
    ((addChild s p c) m)._parent = (s m)._parent := by
  unfold addChild
  cases getIndexOfChild (s p)._children c with
  | some i => rfl
  | none =>
    by_cases hm : m = p
    · subst hm; simp [setNode]
    · simp [setNode, hm]

/-- `removeChild` never touches the `title` attribute of any node. -/
theorem removeChild_title (s : State) (p c m : Nat) :
    ((removeChild s p c) m).title = (s m).title := by
  unfold removeChild
  cases getIndexOfChild (s p)._children c with
  | none => rfl
  | some i =>
    by_cases hm : m = p
    · subst hm; simp [setNode]
    · simp [setNode, hm]

/-- `addChild` never touches the `title` attribute of any node. -/
theorem addChild_title (s : State) (p c m : Nat) :
    ((addChild s p c) m).title = (s m).title := by
  unfold addChild
  cases getIndexOfChild (s p)._children c with
  | some i => rfl
  | none =>
    by_cases hm : m = p
    · subst hm; simp [setNode]
    · simp [setNode, hm]

/-- The detach statement never touches the `_parent` backing field. -/
theorem detachFromOldParent_parent (s : State) (n m : Nat) :
    ((detachFromOldParent s n) m)._parent = (s m)._parent := by
  unfold detachFromOldParent
  cases (s n)._parent with
  | none => rfl
  | some q => exact removeChild_parent s q n m

/-- The detach statement never changes titles. -/
theorem detachFromOldParent_title (s : State) (n m : Nat) :
    ((detachFromOldParent s n) m).title = (s m).title := by
  unfold detachFromOldParent
  cases (s n)._parent with
  | none => rfl
  | some q => exact removeChild_title s q n m

/-- The parent setter never writes the `_parent` backing field
(the source assignment `this._parent = value` is absent). -/
theorem setParent_parent (s : State) (n : Nat) (v : Option Nat) (m : Nat) :
    ((setParent s n v) m)._parent = (s m)._parent := by
  unfold setParent
  cases v with
  | none => exact detachFromOldParent_parent s n m
  | some p =>
    rw [addChild_parent]
    exact detachFromOldParent_parent s n m

/-- The parent setter never changes titles. -/
theorem setParent_title (s : State) (n : Nat) (v : Option Nat) (m : Nat) :
    ((setParent s n v) m).title = (s m).title := by
  unfold setParent
  cases v with
  | none => exact detachFromOldParent_title s n m
  | some p =>
    rw [addChild_title]
    exact detachFromOldParent_title s n m

/-- After `addChild`, the child is in the parent's child list
(it is either already there or pushed at the end). -/
theorem addChild_mem (s : State) (p c : Nat) :
    c ∈ ((addChild s p c) p)._children := by
  unfold addChild
  cases h : getIndexOfChild (s p)._children c with
  | some i =>
    by_contra hc
    rw [(getIndexOfChild_eq_none (s p)._children c).mpr hc] at h
    cases h
  | none => simp [setNode]

/-- `addChild` of an already-present child is the identity. -/
theorem addChild_of_mem (s : State) (p c : Nat)
    (h : c ∈ (s p)._children) :
    addChild s p c = s := by
  unfold addChild
  cases hidx : getIndexOfChild (s p)._children c with
  | some i => rfl
  | none => exact absurd h ((getIndexOfChild_eq_none (s p)._children c).mp hidx)

/-- Invariant: every node's `_parent` backing field is unset. -/
def AllParentsNone (s : State) : Prop :=
  ∀ n, (s n)._parent = none

/-- Every operation preserves the all-parents-unset invariant: the
constructors initialise the field to `undefined` and no operation ever
assigns it. -/
theorem applyOp_allParentsNone (s : State) (op : Op)
    (h : AllParentsNone s) : AllParentsNone (applyOp s op) := by
  cases op with
  | mkNotebook id t =>
    intro m
    unfold applyOp newNotebook
    rw [setParent_parent, setNode_apply]
    by_cases hm : m = id <;> simp [hm, h m]
  | mkPage nb id t =>
    intro m
    unfold applyOp createPage
    rw [setParent_parent, setNode_apply]
    by_cases hm : m = id <;> simp [hm, h m]
  | mkTextCell id txt =>
    intro m
    unfold applyOp newTextCell
    rw [setParent_parent, setNode_apply]
    by_cases hm : m = id <;> simp [hm, h m]
  | mkSourceCodeCell id code =>
    intro m
    unfold applyOp newSourceCodeCell
    rw [setParent_parent, setNode_apply]
    by_cases hm : m = id <;> simp [hm, h m]
  | mkImageCell id url =>
    intro m
    unfold applyOp newImageCell
    rw [setParent_parent, setNode_apply]
    by_cases hm : m = id <;> simp [hm, h m]
  | opAddCell p c =>
    intro m
    unfold applyOp addCell
    rw [setParent_parent]
    exact h m
  | opSetParent n v =>
    intro m
    unfold applyOp
    rw [setParent_parent]
    exact h m

/-- Running any operation sequence preserves the invariant. -/
theorem run_allParentsNone (ops : List Op) (s : State)
    (h : AllParentsNone s) : AllParentsNone (run s ops) := by
  induction ops generalizing s with
  | nil => exact h
  | cons op rest ih => exact ih (applyOp s op) (applyOp_allParentsNone s op h)

/-- C3: for every node constructed through the public constructors and
after any sequence of parent assignments and attach operations, the
`parent` getter returns `undefined`: no operation of the repository
ever writes the `_parent` backing field, so starting from the empty
heap it stays unset at every node forever. -/
theorem parent_getter_always_none (ops : List Op) (n : Nat) :
    parentOf (run s0 ops) n = none :=
  run_allParentsNone ops s0 (fun _ => rfl) n

/-- A notebook with two pages and a cell attached to the first page,
then the cell reparented to the second page. -/
def reparentDemo : State :=
  run s0
    [ Op.mkNotebook 0 "N",
      Op.mkPage 0 1 "P1",
      Op.mkPage 0 2 "P2",
      Op.mkTextCell 3 "x",
      Op.opAddCell 1 3,
      Op.opSetParent 3 (some 2) ]

/-- C2: refuted on the code.  In the scenario above, after
`cell.parent = page2`, the cell sits in the children of BOTH pages
(it is never removed from page 1, because `this.parent` always reads
`undefined`, so the detach branch of the setter is dead), the cell's
`parent` reference is still `undefined` rather than page 2 (breaking
the two-sided edge consistency), and a subsequent `cell.parent = null`
removes it from no child list at all. -/
theorem reparent_consistency_fails :
    childrenOf reparentDemo 1 = [3] ∧
    childrenOf reparentDemo 2 = [3] ∧
    parentOf reparentDemo 3 = none ∧
    childrenOf (setParent reparentDemo 3 none) 1 = [3] ∧
    childrenOf (setParent reparentDemo 3 none) 2 = [3] := by
  decide

/-- A page with two cells, whose first cell is detached
(`parent = null`) and then re-attached to the same page. -/
def reattachDemo : State :=
  run s0
    [ Op.mkNotebook 0 "N",
      Op.mkPage 0 1 "P",
      Op.mkTextCell 2 "a",
      Op.mkTextCell 3 "b",
      Op.opAddCell 1 2,
      Op.opAddCell 1 3,
      Op.opSetParent 2 none,
      Op.opAddCell 1 2 ]

/-- C4: refuted on the code.  Detaching cell 2 from the page and
re-attaching it leaves the child list `[2, 3]`: the detach is a no-op
(the setter's removal branch never fires since `this.parent` is always
`undefined`) and the re-attach early-returns on the duplicate check,
so the cell keeps its old position instead of moving to the end
(`[3, 2]`, as the claim requires). -/
theorem reattach_keeps_old_position :
    childrenOf reattachDemo 1 = [2, 3] ∧
    childrenOf reattachDemo 1 ≠ [3, 2] := by
  decide

/-- On a node whose `_parent` backing field is unset — every node the
program ever creates — the parent setter degenerates to a bare
`addChild` on the target. -/
theorem setParent_attach_of_parent_none (s : State) (n p : Nat)
    (h : (s n)._parent = none) :
    setParent s n (some p) = addChild s p n := by
  unfold setParent detachFromOldParent
  rw [h]

/-- C5: setting the same parent twice in succession equals setting it
once — the hypothesis that `n`'s `_parent` backing field is unset
holds for every node the program ever creates
(`parent_getter_always_none`).  The second assignment finds `n`
already present in `p`'s children and returns without modifying the
collection. -/
theorem attach_idempotent (s : State) (n p : Nat)
    (h : (s n)._parent = none) :
    setParent (setParent s n (some p)) n (some p) = setParent s n (some p) := by
  have h2 : ((setParent s n (some p)) n)._parent = none := by
    rw [setParent_parent]; exact h
  rw [setParent_attach_of_parent_none (setParent s n (some p)) n p h2,
      setParent_attach_of_parent_none s n p h,
      addChild_of_mem]
  exact addChild_mem s p n

/-- C5 witness: the concrete double attach of a fresh cell to a fresh
page. -/
theorem attach_idempotent_witness :
    ((run s0 [Op.mkPage 0 1 "P", Op.mkTextCell 2 "a"]) 2)._parent = none ∧
    setParent (setParent (run s0 [Op.mkPage 0 1 "P", Op.mkTextCell 2 "a"]) 2 (some 1)) 2 (some 1)
      = setParent (run s0 [Op.mkPage 0 1 "P", Op.mkTextCell 2 "a"]) 2 (some 1) :=
  ⟨by decide, attach_idempotent (run s0 [Op.mkPage 0 1 "P", Op.mkTextCell 2 "a"]) 2 1 (by decide)⟩

/-- Attaching a node always ends with it present in the target's
child list (second statement of the parent setter). -/
theorem setParent_mem (s : State) (n p : Nat) :
    n ∈ childrenOf (setParent s n (some p)) p :=
  addChild_mem (detachFromOldParent s n) p n

/-- C8: `Notebook.createPage(title)` constructs a page carrying the
given title that is immediately present in the notebook's `pages` view
(and is returned — the model returns its id), and `Page.addCell(cell)`
attaches the cell by assigning its parent, after which the cell is
present in the page's `cells` view. -/
theorem createPage_addCell_attach :
    (∀ (s : State) (nb id : Nat) (t : String),
      ((createPage s nb id t) id).title = t ∧
      id ∈ childrenOf (createPage s nb id t) nb) ∧
    (∀ (s : State) (p c : Nat),
      c ∈ childrenOf (addCell s p c) p) := by
  refine ⟨fun s nb id t => ⟨?_, ?_⟩, fun s p c => ?_⟩
  · unfold createPage
    rw [setParent_title, setNode_apply]
    simp
  · exact setParent_mem _ id nb
  · exact setParent_mem s c p

/-- The cell classes: every kind except the two container kinds. -/
def isCellKind : Kind → Bool
  | Kind.notebook => false
  | Kind.page => false
  | Kind.textCell => true
  | Kind.sourceCodeCell => true
  | Kind.imageCell => true

/-- The single HTML line a cell's exporter operation emits
(without the leading newline separator). -/
def cellLineHtml (s : State) (n : Nat) : String :=
  match (s n).kind with
  | Kind.textCell => "<p>" ++ (s n).text ++ "</p>"
  | Kind.sourceCodeCell => "<code>" ++ (s n).sourceCode ++ "</code>"
  | Kind.imageCell => "<img src=\"" ++ (s n).imageUrl ++ "\">"
  | _ => ""

/-- The single XML line a cell's exporter operation emits. -/
def cellLineXml (s : State) (n : Nat) : String :=
  match (s n).kind with
  | Kind.textCell => "<text>" ++ (s n).text ++ "</text>"
  | Kind.sourceCodeCell => "<code>" ++ (s n).sourceCode ++ "</code>"
  | Kind.imageCell => "<image url=\"" ++ (s n).imageUrl ++ "\" />"
  | _ => ""

/-- HTML emitted for a list of cells, each line preceded by the
newline separator. -/
def hCells (s : State) : List Nat → String
  | [] => ""
  | c :: rest => "\n" ++ cellLineHtml s c ++ hCells s rest

/-- XML emitted for a list of cells. -/
def xCells (s : State) : List Nat → String
  | [] => ""
  | c :: rest => "\n" ++ cellLineXml s c ++ xCells s rest

/-- The HTML serialization of a page subtree: opening marker with the
title, the cells in order, closing marker. -/
def pageHtml (s : State) (p : Nat) : String :=
  "\n" ++ "<section class=\"page\">" ++ "\n" ++ "<h2>" ++ (s p).title ++ "</h2>"
    ++ hCells s (childrenOf s p) ++ "\n" ++ "</section>"

/-- The XML serialization of a page subtree. -/
def pageXml (s : State) (p : Nat) : String :=
  "\n" ++ "<page title=\"" ++ (s p).title ++ "\">"
    ++ xCells s (childrenOf s p) ++ "\n" ++ "</page>"

/-- HTML emitted for a list of pages. -/
def hPages (s : State) : List Nat → String
  | [] => ""
  | p :: rest => pageHtml s p ++ hPages s rest

/-- XML emitted for a list of pages. -/
def xPages (s : State) : List Nat → String
  | [] => ""
  | p :: rest => pageXml s p ++ xPages s rest

/-- The HTML serialization of a whole notebook. -/
def notebookHtml (s : State) (n : Nat) : String :=
  "\n" ++ "<main class=\"notebook\">" ++ "\n" ++ "<h1>" ++ (s n).title ++ "</h1>"
    ++ hPages s (childrenOf s n) ++ "\n" ++ "</main>"

/-- The XML serialization of a whole notebook. -/
def notebookXml (s : State) (n : Nat) : String :=
  "\n" ++ "<notebook title=\"" ++ (s n).title ++ "\">"
    ++ xPages s (childrenOf s n) ++ "\n" ++ "</notebook>"

/-- A well-formed page: its record is a `Page` and its children are
cells.  (The parent pointer is irrelevant.) -/
def WfPage (s : State) (p : Nat) : Prop :=
  (s p).kind = Kind.page ∧ ∀ c ∈ childrenOf s p, isCellKind (s c).kind = true

/-- A well-formed notebook: its record is a `Notebook` and its
children are well-formed pages.  This captures exactly the finite
trees the public operations build. -/
def WfNotebook (s : State) (n : Nat) : Prop :=
  (s n).kind = Kind.notebook ∧ ∀ p ∈ childrenOf s n, WfPage s p

instance (s : State) (p : Nat) : Decidable (WfPage s p) := by
  unfold WfPage; infer_instance

instance (s : State) (n : Nat) : Decidable (WfNotebook s n) := by
  unfold WfNotebook; infer_instance


/-- A cell's export with any positive fuel emits exactly its line. -/
theorem hExport_cell (f : Nat) (s : State) (n : Nat) (b : String)
    (h : isCellKind (s n).kind = true) :
    hExport (Nat.succ f) s n b = some (s, b ++ "\n" ++ cellLineHtml s n) := by
  cases hk : (s n).kind
  case notebook => rw [isCellKind.eq_def, hk] at h; cases h
  case page => rw [isCellKind.eq_def, hk] at h; cases h
  case textCell =>
    rw [hExport.eq_2]
    simp [hk, cellLineHtml, appendHtmlLine]
  case sourceCodeCell =>
    rw [hExport.eq_2]
    simp [hk, cellLineHtml, appendHtmlLine]
  case imageCell =>
    rw [hExport.eq_2]
    simp [hk, cellLineHtml, appendHtmlLine]

/-- The child loop over a list of cells emits their lines in order and
leaves the heap untouched. -/
theorem exportIter_hCells (f : Nat) (s : State) (cs : List Nat) (b : String)
    (h : ∀ c ∈ cs, isCellKind (s c).kind = true) :
    exportIter (hExport (Nat.succ f)) s cs b = some (s, b ++ hCells s cs) := by
  induction cs generalizing b with
  | nil => simp [exportIter, hCells]
  | cons c rest ih =>
    have hc : isCellKind (s c).kind = true := h c (List.mem_cons_self c rest)
    have hrest : ∀ x ∈ rest, isCellKind (s x).kind = true :=
      fun x hx => h x (List.mem_cons_of_mem c hx)
    simp only [exportIter, hExport_cell f s c b hc]
    rw [ih _ hrest]
    simp [hCells, String.append_assoc]

/-- A well-formed page's export with fuel at least 2 emits exactly the
page's serialization and leaves the heap untouched. -/
theorem hExport_page (f : Nat) (s : State) (p : Nat) (b : String)
    (h : WfPage s p) :
    hExport (Nat.succ (Nat.succ f)) s p b = some (s, b ++ pageHtml s p) := by
  obtain ⟨hk, hcells⟩ := h
  rw [hExport.eq_2]
  simp only [hk]
  rw [exportIter_hCells f s (s p)._children _ hcells]
  simp [pageHtml, appendHtmlLine, childrenOf, String.append_assoc]
  rfl

/-- The child loop over a list of well-formed pages emits their
serializations in order. -/
theorem exportIter_hPages (f : Nat) (s : State) (ps : List Nat) (b : String)
    (h : ∀ p ∈ ps, WfPage s p) :
    exportIter (hExport (Nat.succ (Nat.succ f))) s ps b
      = some (s, b ++ hPages s ps) := by
  induction ps generalizing b with
  | nil => simp [exportIter, hPages]
  | cons p rest ih =>
    have hp : WfPage s p := h p (List.mem_cons_self p rest)
    have hrest : ∀ x ∈ rest, WfPage s x :=
      fun x hx => h x (List.mem_cons_of_mem p hx)
    simp only [exportIter, hExport_page f s p b hp]
    rw [ih _ hrest]
    simp [hPages, String.append_assoc]

/-- A well-formed notebook's export with fuel at least 3 emits exactly
the notebook's serialization and leaves the heap untouched. -/
theorem hExport_notebook (f : Nat) (s : State) (n : Nat) (b : String)
    (h : WfNotebook s n) :
    hExport (Nat.succ (Nat.succ (Nat.succ f))) s n b
      = some (s, b ++ notebookHtml s n) := by
  obtain ⟨hk, hpages⟩ := h
  rw [hExport.eq_2]
  simp only [hk]
  rw [exportIter_hPages f s (s n)._children _ hpages]
  simp [notebookHtml, appendHtmlLine, childrenOf, String.append_assoc]
  rfl

/-- A cell's XML export with any positive fuel emits exactly its line. -/
theorem xExport_cell (f : Nat) (s : State) (n : Nat) (b : String)
    (h : isCellKind (s n).kind = true) :
    xExport (Nat.succ f) s n b = some (s, b ++ "\n" ++ cellLineXml s n) := by
  cases hk : (s n).kind
  case notebook => rw [isCellKind.eq_def, hk] at h; cases h
  case page => rw [isCellKind.eq_def, hk] at h; cases h
  case textCell =>
    rw [xExport.eq_2]
    simp [hk, cellLineXml, appendXmlLine]
  case sourceCodeCell =>
    rw [xExport.eq_2]
    simp [hk, cellLineXml, appendXmlLine]
  case imageCell =>
    rw [xExport.eq_2]
    simp [hk, cellLineXml, appendXmlLine]

/-- The XML child loop over a list of cells. -/
theorem exportIter_xCells (f : Nat) (s : State) (cs : List Nat) (b : String)
    (h : ∀ c ∈ cs, isCellKind (s c).kind = true) :
    exportIter (xExport (Nat.succ f)) s cs b = some (s, b ++ xCells s cs) := by
  induction cs generalizing b with
  | nil => simp [exportIter, xCells]
  | cons c rest ih =>
    have hc : isCellKind (s c).kind = true := h c (List.mem_cons_self c rest)
    have hrest : ∀ x ∈ rest, isCellKind (s x).kind = true :=
      fun x hx => h x (List.mem_cons_of_mem c hx)
    simp only [exportIter, xExport_cell f s c b hc]
    rw [ih _ hrest]
    simp [xCells, String.append_assoc]

/-- A well-formed page's XML export with fuel at least 2. -/
theorem xExport_page (f : Nat) (s : State) (p : Nat) (b : String)
    (h : WfPage s p) :
    xExport (Nat.succ (Nat.succ f)) s p b = some (s, b ++ pageXml s p) := by
  obtain ⟨hk, hcells⟩ := h
  rw [xExport.eq_2]
  simp only [hk]
  rw [exportIter_xCells f s (s p)._children _ hcells]
  simp [pageXml, appendXmlLine, childrenOf, String.append_assoc]
  rfl

/-- The XML child loop over a list of well-formed pages. -/
theorem exportIter_xPages (f : Nat) (s : State) (ps : List Nat) (b : String)
    (h : ∀ p ∈ ps, WfPage s p) :
    exportIter (xExport (Nat.succ (Nat.succ f))) s ps b
      = some (s, b ++ xPages s ps) := by
  induction ps generalizing b with
  | nil => simp [exportIter, xPages]
  | cons p rest ih =>
    have hp : WfPage s p := h p (List.mem_cons_self p rest)
    have hrest : ∀ x ∈ rest, WfPage s x :=
      fun x hx => h x (List.mem_cons_of_mem p hx)
    simp only [exportIter, xExport_page f s p b hp]
    rw [ih _ hrest]
    simp [xPages, String.append_assoc]

/-- A well-formed notebook's XML export with fuel at least 3. -/
theorem xExport_notebook (f : Nat) (s : State) (n : Nat) (b : String)
    (h : WfNotebook s n) :
    xExport (Nat.succ (Nat.succ (Nat.succ f))) s n b
      = some (s, b ++ notebookXml s n) := by
  obtain ⟨hk, hpages⟩ := h
  rw [xExport.eq_2]
  simp only [hk]
  rw [exportIter_xPages f s (s n)._children _ hpages]
  simp [notebookXml, appendXmlLine, childrenOf, String.append_assoc]
  rfl

/-- If one export step never changes the heap, neither does the child
loop. -/
theorem exportIter_frame
    (step : State → Nat → String → Option (State × String))
    (hstep : ∀ s n b r, step s n b = some r → r.1 = s) :
    ∀ (ns : List Nat) (s : State) (b : String) (r : State × String),
      exportIter step s ns b = some r → r.1 = s := by
  intro ns
  induction ns with
  | nil =>
    intro s b r h
    simp only [exportIter] at h
    injection h with h1
    rw [← h1]
  | cons c rest ih =>
    intro s b r h
    simp only [exportIter] at h
    cases hc : step s c b with
    | none => rw [hc] at h; cases h
    | some r1 =>
      obtain ⟨s1, b1⟩ := r1
      rw [hc] at h
      simp only [] at h
      rw [ih s1 b1 r h]
      exact hstep s c b (s1, b1) hc

/-- The HTML exporter operations never change the heap: every
returned state equals the input state. -/
theorem hExport_frame :
    ∀ (fuel : Nat) (s : State) (n : Nat) (b : String) (r : State × String),
      hExport fuel s n b = some r → r.1 = s := by
  intro fuel
  induction fuel with
  | zero =>
    intro s n b r h
    simp only [hExport] at h
    injection h
  | succ f ih =>
    intro s n b r h
    cases hk : (s n).kind <;> simp only [hExport.eq_2, hk] at h
    case notebook =>
      split at h
      · injection h
      · rename_i s2 b3 hit
        injection h with h1
        rw [← h1]
        exact exportIter_frame (hExport f) ih _ s _ (s2, b3) hit
    case page =>
      split at h
      · injection h
      · rename_i s2 b3 hit
        injection h with h1
        rw [← h1]
        exact exportIter_frame (hExport f) ih _ s _ (s2, b3) hit
    case textCell => injection h with h1; rw [← h1]
    case sourceCodeCell => injection h with h1; rw [← h1]
    case imageCell => injection h with h1; rw [← h1]

/-- The XML exporter operations never change the heap. -/
theorem xExport_frame :
    ∀ (fuel : Nat) (s : State) (n : Nat) (b : String) (r : State × String),
      xExport fuel s n b = some r → r.1 = s := by
  intro fuel
  induction fuel with
  | zero =>
    intro s n b r h
    simp only [xExport] at h
    injection h
  | succ f ih =>
    intro s n b r h
    cases hk : (s n).kind <;> simp only [xExport.eq_2, hk] at h
    case notebook =>
      split at h
      · injection h
      · rename_i s2 b2 hit
        injection h with h1
        rw [← h1]
        exact exportIter_frame (xExport f) ih _ s _ (s2, b2) hit
    case page =>
      split at h
      · injection h
      · rename_i s2 b2 hit
        injection h with h1
        rw [← h1]
        exact exportIter_frame (xExport f) ih _ s _ (s2, b2) hit
    case textCell => injection h with h1; rw [← h1]
    case sourceCodeCell => injection h with h1; rw [← h1]
    case imageCell => injection h with h1; rw [← h1]

/-- If one export step is a pure buffer appender, so is the child
loop: running it on buffer `b` produces `b` followed by exactly what a
run on the empty buffer would produce. -/
theorem exportIter_append
    (step : State → Nat → String → Option (State × String))
    (hstep : ∀ s n b, step s n b
      = Option.map (fun r => (r.1, b ++ r.2)) (step s n "")) :
    ∀ (ns : List Nat) (s : State) (b : String),
      exportIter step s ns b
        = Option.map (fun r => (r.1, b ++ r.2)) (exportIter step s ns "") := by
  intro ns
  induction ns with
  | nil => intro s b; simp [exportIter]
  | cons c rest ih =>
    intro s b
    simp only [exportIter]
    rw [hstep s c b]
    cases h0 : step s c "" with
    | none => simp
    | some r1 =>
      obtain ⟨s1, t1⟩ := r1
      simp only [Option.map_some']
      rw [ih s1 (b ++ t1), ih s1 t1]
      cases h2 : exportIter step s1 rest "" with
      | none => simp
      | some r2 => simp [String.append_assoc]

/-- Every HTML exporter operation only appends to the buffer. -/
theorem hExport_append :
    ∀ (fuel : Nat) (s : State) (n : Nat) (b : String),
      hExport fuel s n b
        = Option.map (fun r => (r.1, b ++ r.2)) (hExport fuel s n "") := by
  intro fuel
  induction fuel with
  | zero => intro s n b; simp [hExport]
  | succ f ih =>
    intro s n b
    cases hk : (s n).kind <;> simp only [hExport.eq_2, hk]
    case notebook =>
      rw [exportIter_append (hExport f) ih (s n)._children s
            (appendHtmlLine (appendHtmlLine b "<main class=\"notebook\">")
              ("<h1>" ++ (s n).title ++ "</h1>")),
          exportIter_append (hExport f) ih (s n)._children s
            (appendHtmlLine (appendHtmlLine "" "<main class=\"notebook\">")
              ("<h1>" ++ (s n).title ++ "</h1>"))]
      cases h2 : exportIter (hExport f) s (s n)._children "" with
      | none => simp
      | some r2 =>
        simp [appendHtmlLine, String.append_assoc, String.empty_append]
    case page =>
      rw [exportIter_append (hExport f) ih (s n)._children s
            (appendHtmlLine (appendHtmlLine b "<section class=\"page\">")
              ("<h2>" ++ (s n).title ++ "</h2>")),
          exportIter_append (hExport f) ih (s n)._children s
            (appendHtmlLine (appendHtmlLine "" "<section class=\"page\">")
              ("<h2>" ++ (s n).title ++ "</h2>"))]
      cases h2 : exportIter (hExport f) s (s n)._children "" with
      | none => simp
      | some r2 =>
        simp [appendHtmlLine, String.append_assoc, String.empty_append]
    case textCell => simp [appendHtmlLine, String.append_assoc]
    case sourceCodeCell => simp [appendHtmlLine, String.append_assoc]
    case imageCell => simp [appendHtmlLine, String.append_assoc]

/-- Every XML exporter operation only appends to the buffer. -/
theorem xExport_append :
    ∀ (fuel : Nat) (s : State) (n : Nat) (b : String),
      xExport fuel s n b
        = Option.map (fun r => (r.1, b ++ r.2)) (xExport fuel s n "") := by
  intro fuel
  induction fuel with
  | zero => intro s n b; simp [xExport]
  | succ f ih =>
    intro s n b
    cases hk : (s n).kind <;> simp only [xExport.eq_2, hk]
    case notebook =>
      rw [exportIter_append (xExport f) ih (s n)._children s
            (appendXmlLine b ("<notebook title=\"" ++ (s n).title ++ "\">")),
          exportIter_append (xExport f) ih (s n)._children s
            (appendXmlLine "" ("<notebook title=\"" ++ (s n).title ++ "\">"))]
      cases h2 : exportIter (xExport f) s (s n)._children "" with
      | none => simp
      | some r2 =>
        simp [appendXmlLine, String.append_assoc, String.empty_append]
    case page =>
      rw [exportIter_append (xExport f) ih (s n)._children s
            (appendXmlLine b ("<page title=\"" ++ (s n).title ++ "\">")),
          exportIter_append (xExport f) ih (s n)._children s
            (appendXmlLine "" ("<page title=\"" ++ (s n).title ++ "\">"))]
      cases h2 : exportIter (xExport f) s (s n)._children "" with
      | none => simp
      | some r2 =>
        simp [appendXmlLine, String.append_assoc, String.empty_append]
    case textCell => simp [appendXmlLine, String.append_assoc]
    case sourceCodeCell => simp [appendXmlLine, String.append_assoc]
    case imageCell => simp [appendXmlLine, String.append_assoc]

set_option maxRecDepth 40000

/-- The HTML the demo driver prints. -/
def demoHtml : String :=
  "\n<main class=\"notebook\">\n<h1>My Coding Ideas</h1>\n<section class=\"page\">\n<h2>First Page</h2>\n<img src=\"https://x/logo.png\">\n<code>alert("
    ++ apostr ++ "Hello, World!" ++ apostr
    ++ ");</code>\n<p>Hello, World!</p>\n</section>\n<section class=\"page\">\n<h2>Second Page</h2>\n<p>Bye, World!</p>\n</section>\n</main>"

/-- The XML the demo driver prints, minus the preamble the exporter's
buffer starts with. -/
def demoXmlBody : String :=
  "\n<notebook title=\"My Coding Ideas\">\n<page title=\"First Page\">\n<image url=\"https://x/logo.png\" />\n<code>alert("
    ++ apostr ++ "Hello, World!" ++ apostr
    ++ ");</code>\n<text>Hello, World!</text>\n</page>\n<page title=\"Second Page\">\n<text>Bye, World!</text>\n</page>\n</notebook>"

/-- C1: exporting the fixed demo notebook with a fresh `HtmlExporter`
yields exactly the HTML line sequence of the specification, and with a
fresh `XmlExporter` exactly the preamble followed by the XML line
sequence — every line joined by a leading newline, attribute values
embedded raw, byte for byte.  (The pair's second component is the
buffer the public `html` / `xml` accessor returns; the first is the
untouched heap.) -/
theorem demo_export_exact :
    runHtmlExporter demoState 0 = some (demoState, demoHtml) ∧
    runXmlExporter demoState 0 = some (demoState, xmlInit ++ demoXmlBody) :=
  ⟨rfl, rfl⟩

/-- C6: export is total.  On every heap and every node whose subtree
is shaped notebook → pages → cells — which is every tree the public
operations can build, and the embedding's inductive bound shows the
dynamic recursion depth is 3 — both exporters terminate with fuel 3
and produce the full serialization; they never return `none` (the
embedding's image of nontermination or runtime failure).  Reparent and
attach are embedded as total functions, so their totality is
definitional. -/
theorem export_total_on_wf_trees (s : State) (n : Nat) (b : String)
    (h : WfNotebook s n) :
    hExport 3 s n b = some (s, b ++ notebookHtml s n) ∧
    xExport 3 s n b = some (s, b ++ notebookXml s n) :=
  ⟨hExport_notebook 0 s n b h, xExport_notebook 0 s n b h⟩

/-- C6 witness: the demo notebook is well formed and exports fully. -/
theorem export_total_on_wf_trees_witness :
    WfNotebook demoState 0 ∧
    (hExport 3 demoState 0 htmlInit
        = some (demoState, htmlInit ++ notebookHtml demoState 0) ∧
     xExport 3 demoState 0 htmlInit
        = some (demoState, htmlInit ++ notebookXml demoState 0)) :=
  ⟨by decide, export_total_on_wf_trees demoState 0 htmlInit (by decide)⟩

/-- C7: frame condition — every exporter operation of both exporters
leaves the tree untouched.  The heap threaded through the traversal
comes back equal to the input heap, hence every node's parent
reference, children list and attributes are unchanged. -/
theorem export_does_not_mutate_tree
    (fuel : Nat) (s : State) (n : Nat) (b : String) (r : State × String) :
    (hExport fuel s n b = some r → r.1 = s) ∧
    (xExport fuel s n b = some r → r.1 = s) :=
  ⟨hExport_frame fuel s n b r, xExport_frame fuel s n b r⟩

/-- C7 witness: both demo exports return the demo heap itself. -/
theorem export_does_not_mutate_tree_witness :
    demoState = demoState ∧ demoState = demoState :=
  ⟨(export_does_not_mutate_tree 3 demoState 0 htmlInit
      (demoState, demoHtml)).1 rfl,
   (export_does_not_mutate_tree 3 demoState 0 xmlInit
      (demoState, xmlInit ++ demoXmlBody)).2 rfl⟩

/-- C9: the exporter buffer only accumulates.  Every operation appends
to the buffer (running on buffer `b` yields `b` followed by exactly
the run from the empty buffer), the accessor returns the whole
accumulated buffer, and nothing ever resets it: exporting a second
time on the same instance appends a second serialization after the
first instead of replacing it (for the XML exporter, after the
preamble the buffer starts with). -/
theorem exporter_buffer_accumulates :
    (∀ (fuel : Nat) (s : State) (n : Nat) (b : String),
      hExport fuel s n b
        = Option.map (fun r => (r.1, b ++ r.2)) (hExport fuel s n htmlInit) ∧
      xExport fuel s n b
        = Option.map (fun r => (r.1, b ++ r.2)) (xExport fuel s n "")) ∧
    (∀ (fuel : Nat) (s : State) (n : Nat) (t : String),
      (hExport fuel s n htmlInit = some (s, t) →
        hExport fuel s n t = some (s, t ++ t)) ∧
      (xExport fuel s n "" = some (s, t) →
        xExport fuel s n xmlInit = some (s, xmlInit ++ t) ∧
        xExport fuel s n (xmlInit ++ t) = some (s, xmlInit ++ (t ++ t)))) := by
  constructor
  · intro fuel s n b
    exact ⟨hExport_append fuel s n b, xExport_append fuel s n b⟩
  · intro fuel s n t
    constructor
    · intro h
      simp only [htmlInit] at h
      rw [hExport_append fuel s n t, h]
      rfl
    · intro h
      constructor
      · rw [xExport_append fuel s n xmlInit, h]
        rfl
      · rw [xExport_append fuel s n (xmlInit ++ t), h]
        simp [String.append_assoc]

/-- C9 witness: running the demo export twice on the same exporter
instance doubles the serialization after the initial buffer. -/
theorem exporter_buffer_accumulates_witness :
    (hExport 3 demoState 0 demoHtml = some (demoState, demoHtml ++ demoHtml)) ∧
    (xExport 3 demoState 0 xmlInit = some (demoState, xmlInit ++ demoXmlBody) ∧
     xExport 3 demoState 0 (xmlInit ++ demoXmlBody)
        = some (demoState, xmlInit ++ (demoXmlBody ++ demoXmlBody))) :=
  ⟨(exporter_buffer_accumulates.2 3 demoState 0 demoHtml).1 rfl,
   (exporter_buffer_accumulates.2 3 demoState 0 demoXmlBody).2 rfl⟩

/-- C10: export works on any node, attached or detached — nothing in
either branch consults the node's parent.  A fresh exporter run on a
page yields exactly that page's serialization (opening marker with its
title, its cells in order, closing marker) and on a cell exactly its
single line, with no enclosing notebook markup (the XML buffer starts
with the format preamble, not notebook markup). -/
theorem export_works_on_any_node (s : State) (n : Nat) :
    (WfPage s n →
      runHtmlExporter s n = some (s, pageHtml s n) ∧
      runXmlExporter s n = some (s, xmlInit ++ pageXml s n)) ∧
    (isCellKind (s n).kind = true →
      runHtmlExporter s n = some (s, "\n" ++ cellLineHtml s n) ∧
      runXmlExporter s n = some (s, xmlInit ++ "\n" ++ cellLineXml s n)) := by
  constructor
  · intro h
    constructor
    · have := hExport_page 1 s n htmlInit h
      rw [runHtmlExporter, this]
      simp [htmlInit]
    · exact xExport_page 1 s n xmlInit h
  · intro h
    constructor
    · have := hExport_cell 2 s n htmlInit h
      rw [runHtmlExporter, this]
      simp [htmlInit]
    · exact xExport_cell 2 s n xmlInit h

/-- C10 witness: the demo's first page and its text cell, exported on
their own. -/
theorem export_works_on_any_node_witness :
    (runHtmlExporter demoState 1 = some (demoState, pageHtml demoState 1) ∧
     runXmlExporter demoState 1 = some (demoState, xmlInit ++ pageXml demoState 1)) ∧
    (runHtmlExporter demoState 4 = some (demoState, "\n" ++ cellLineHtml demoState 4) ∧
     runXmlExporter demoState 4 = some (demoState, xmlInit ++ "\n" ++ cellLineXml demoState 4)) :=
  ⟨(export_works_on_any_node demoState 1).1 (by decide),
   (export_works_on_any_node demoState 4).2 (by decide)⟩
